import Mathlib

/-!
# Visual Product Matcher: the search interaction of `frontend/src/App.jsx`

A shallow embedding of the `App` component: its six `useState` cells, the
browser services its handlers touch (object URLs, `alert`, `console.error`,
the file input behind `fileInputRef`, the requests made by `axios.post`), the
handlers themselves, and the part of the rendered tree that decides which
handler a user action can reach.

`handleSearch` is asynchronous.  It is embedded as two functions: the part that
runs up to the `await` (`handleSearch`) and the part that runs when the promise
of `axios.post` settles (`handleSearchSettled`).
-/

namespace VisualProductMatcher

/-! ## Data -/

/-- A browser `File`: the two properties the component reads. -/
structure File where
  name : String
  type : String
deriving DecidableEq

/-- The `product` object of one element of the response array. -/
structure Product where
  name : String
  category : String
  image : String
deriving DecidableEq

/-- One element of the response array (`item.product`, `item.similarity`). -/
structure MatchResult where
  product : Product
  similarity : ℚ
deriving DecidableEq

/-- The `response` object carried by an error of `axios` when the server answered. -/
structure ErrorResponse where
  status : Nat
deriving DecidableEq

/-- An error thrown by `axios.post`; `response` is undefined for a network error. -/
structure AxiosError where
  response : Option ErrorResponse
deriving DecidableEq

/-- How the promise returned by `axios.post` settles: `res.data` or a thrown `err`. -/
inductive AxiosResult where
  | resolved (data : List MatchResult)
  | rejected (err : AxiosError)
deriving DecidableEq

/-- One call of `axios.post`: the target address and the `image` part of the form. -/
structure Request where
  url : String
  image : File
deriving DecidableEq

/-- The six `useState` cells of `App`. -/
structure AppState where
  file : Option File
  imagePreview : Option Nat
  results : List MatchResult
  loading : Bool
  noMatches : Bool
  isDragging : Bool
deriving DecidableEq

/-- The browser side of the component.

* `VITE_API_URL`: the value of `import.meta.env.VITE_API_URL`, if defined;
* `fileInputRef`: the `value` of the input element held by `fileInputRef.current`
  (`none` when the ref is empty);
* `objectURLs`: the files registered by `URL.createObjectURL`, the position in
  the list being the handle that was returned;
* `revokedURLs`: the handles passed to `URL.revokeObjectURL`;
* `alerts`, `consoleErrors`: the calls of `alert` and `console.error`, in order;
* `posts`: the calls of `axios.post`, in order, the position being the request id;
* `pending`: the ids of the requests whose promise has not settled yet. -/
structure Env where
  VITE_API_URL : Option String
  fileInputRef : Option String
  objectURLs : List File
  revokedURLs : List Nat
  alerts : List String
  consoleErrors : List AxiosError
  posts : List Request
  pending : List Nat
deriving DecidableEq

/-- The component together with its surroundings. -/
structure App where
  st : AppState
  env : Env
deriving DecidableEq

/-! ## Browser services -/

/-- `URL.createObjectURL(f)`: registers `f` and returns a handle never returned before. -/
def createObjectURL (env : Env) (f : File) : Nat × Env :=
  (env.objectURLs.length, { env with objectURLs := env.objectURLs ++ [f] })

/-- `alert(msg)`. -/
def alert (env : Env) (msg : String) : Env :=
  { env with alerts := env.alerts ++ [msg] }

/-- `console.error(err)`. -/
def consoleError (env : Env) (err : AxiosError) : Env :=
  { env with consoleErrors := env.consoleErrors ++ [err] }

/-- `axios.post(url, formData, ...)`: records the request and leaves it pending. -/
def axiosPost (env : Env) (req : Request) : Env :=
  { env with posts := env.posts ++ [req], pending := env.pending ++ [env.posts.length] }

/-- `s.startsWith(p)`. -/
def startsWith (s p : String) : Bool :=
  p.toList.isPrefixOf s.toList

/-- `import.meta.env.VITE_API_URL || "http://127.0.0.1:8080"`. -/
def API_URL (env : Env) : String :=
  match env.VITE_API_URL with
  | some u => if u = "" then "http://127.0.0.1:8080" else u
  | none => "http://127.0.0.1:8080"

/-! ## Handlers -/

/-- `handleFileChange`, applied to `e.target.files`. -/
def handleFileChange (files : List File) (a : App) : App :=
  match files.head? with
  | some selected =>
      let (url, env) := createObjectURL a.env selected
      { st := { a.st with
                  file := some selected, imagePreview := some url,
                  results := [], noMatches := false },
        env := env }
  | none => a

/-- `handleDragOver`. -/
def handleDragOver (a : App) : App :=
  { a with st := { a.st with isDragging := true } }

/-- `handleDragLeave`. -/
def handleDragLeave (a : App) : App :=
  { a with st := { a.st with isDragging := false } }

/-- `handleDrop`, applied to `e.dataTransfer.files`. -/
def handleDrop (files : List File) (a : App) : App :=
  let a1 : App := { a with st := { a.st with isDragging := false } }
  match files.head? with
  | some selected =>
      if startsWith selected.type "image/" then
        let (url, env) := createObjectURL a1.env selected
        { st := { a1.st with
                    file := some selected, imagePreview := some url,
                    results := [], noMatches := false },
          env := env }
      else a1
  | none => a1

/-- `handleSearch` up to its `await`: the guard on `file`, the three setters and
the call of `axios.post`. -/
def handleSearch (a : App) : App :=
  match a.st.file with
  | none => { a with env := alert a.env "Please upload an image first!" }
  | some file =>
      { st := { a.st with loading := true, results := [], noMatches := false },
        env := axiosPost a.env { url := API_URL a.env ++ "/search", image := file } }

/-- `err.response?.status === 404`. -/
def isNotFound (err : AxiosError) : Bool :=
  match err.response with
  | some r => r.status == 404
  | none => false

/-- `handleSearch` after its `await`: the rest of the `try`, the `catch` and the
`finally`, run when the promise settles with `r`. -/
def handleSearchSettled (r : AxiosResult) (a : App) : App :=
  let a1 : App :=
    match r with
    | .resolved data => { a with st := { a.st with results := data, noMatches := false } }
    | .rejected err =>
        if isNotFound err then
          { a with st := { a.st with results := [], noMatches := true } }
        else
          { a with env := alert (consoleError a.env err) "Something went wrong. Check backend logs." }
  { a1 with st := { a1.st with loading := false } }

/-- `clearImage`. -/
def clearImage (a : App) : App :=
  { st := { a.st with file := none, imagePreview := none, results := [], noMatches := false },
    env := match a.env.fileInputRef with
           | some _ => { a.env with fileInputRef := some "" }
           | none => a.env }

/-! ## The rendered tree -/

/-- The search button: rendered under `imagePreview &&`, with `disabled={loading}`.
`none` when it is not rendered, otherwise its `disabled` attribute. -/
def searchButton (s : AppState) : Option Bool :=
  match s.imagePreview with
  | some _ => some s.loading
  | none => none

/-- The remove button of the preview area: rendered under `imagePreview &&`. -/
def clearButton (s : AppState) : Bool :=
  s.imagePreview.isSome

/-- The "No Matches Found" panel: rendered under `noMatches &&`. -/
def noMatchesPanel (s : AppState) : Bool :=
  s.noMatches

/-- The result grid: `results.map((item, idx) => ...)` under `results.length > 0 &&`,
each card listed with its `key`. -/
def resultCards (s : AppState) : List (Nat × MatchResult) :=
  if s.results.length > 0 then s.results.enum else []

/-! ## Events -/

/-- What can happen to a mounted component. -/
inductive Event where
  | fileChange (files : List File)
  | dragOver
  | dragLeave
  | drop (files : List File)
  | search
  | clear
  | settle (id : Nat) (r : AxiosResult)
deriving DecidableEq

/-- The `value` a file input shows once the user has chosen `files`. -/
def inputValue (files : List File) : String :=
  match files.head? with
  | some f => "C:\\fakepath\\" ++ f.name
  | none => ""

/-- The browser stores the chosen files in the input before `onChange` runs. -/
def chooseFiles (files : List File) (a : App) : App :=
  { a with env := match a.env.fileInputRef with
                  | some _ => { a.env with fileInputRef := some (inputValue files) }
                  | none => a.env }

/-- The promise of request `id` settles with `r`: the request stops being
pending and the rest of its `handleSearch` call runs.  Nothing happens for an
id that is not pending. -/
def settleRequest (id : Nat) (r : AxiosResult) (a : App) : App :=
  if id ∈ a.env.pending then
    handleSearchSettled r { a with env := { a.env with pending := a.env.pending.erase id } }
  else a

/-- The handler an event runs, whatever is rendered. -/
def Event.apply : Event → App → App
  | .fileChange files, a => handleFileChange files (chooseFiles files a)
  | .dragOver, a => handleDragOver a
  | .dragLeave, a => handleDragLeave a
  | .drop files, a => handleDrop files a
  | .search, a => handleSearch a
  | .clear, a => clearImage a
  | .settle id r, a => settleRequest id r a

/-- Whether the rendered tree lets the event reach its handler: a click needs a
rendered button that is not disabled, a settlement needs a pending request. -/
def Event.enabled : Event → App → Bool
  | .search, a => searchButton a.st == some false
  | .clear, a => clearButton a.st
  | .settle id _, a => decide (id ∈ a.env.pending)
  | _, _ => true

/-- One event on the page: it runs its handler if the page lets it through. -/
def dispatch (a : App) (e : Event) : App :=
  if e.enabled a then e.apply a else a

/-- The component after mounting. -/
def init (apiUrl : Option String) : App :=
  { st := { file := none, imagePreview := none, results := [],
            loading := false, noMatches := false, isDragging := false },
    env := { VITE_API_URL := apiUrl, fileInputRef := some "",
             objectURLs := [], revokedURLs := [], alerts := [],
             consoleErrors := [], posts := [], pending := [] } }

/-- The handlers called in sequence, with no regard for what is rendered. -/
def runHandlers (es : List Event) (a : App) : App :=
  es.foldl (fun s e => e.apply s) a

/-- The events of a session on the page. -/
def run (es : List Event) (a : App) : App :=
  es.foldl dispatch a

/-- States reachable by calling handlers in any order. -/
def HandlerReachable (a : App) : Prop :=
  ∃ apiUrl es, a = runHandlers es (init apiUrl)

/-- States reachable on the page. -/
def Reachable (a : App) : Prop :=
  ∃ apiUrl es, a = run es (init apiUrl)

/-! ## Sample data -/

def shoeA : File := { name := "a.png", type := "image/png" }
def shoeB : File := { name := "b.jpg", type := "image/jpeg" }
def notes : File := { name := "notes.txt", type := "text/plain" }

def hit1 : MatchResult :=
  { product := { name := "Runner", category := "Shoes", image := "http://img/1.jpg" },
    similarity := { num := 23, den := 25, den_nz := by decide, reduced := by decide } }
def hit2 : MatchResult :=
  { product := { name := "Trainer", category := "Shoes", image := "http://img/2.jpg" },
    similarity := { num := 81, den := 100, den_nz := by decide, reduced := by decide } }

def serverError : AxiosError := { response := some { status := 500 } }
def notFound : AxiosError := { response := some { status := 404 } }
def networkError : AxiosError := { response := none }

/-- A search for `shoeA` is sent, then `shoeB` is picked while it is in flight. -/
def replacedWhileSearching : List Event :=
  [.fileChange [shoeA], .search, .fileChange [shoeB]]

/-- A search for `shoeA` is sent, then `shoeB` is dropped while it is in flight. -/
def droppedWhileSearching : List Event :=
  [.fileChange [shoeA], .search, .drop [shoeB]]

/-- A search for `shoeA` is sent, then the selection is cleared while it is in flight. -/
def clearedWhileSearching : List Event :=
  [.fileChange [shoeA], .search, .clear]

/-- A search for `shoeA` is sent and nothing else happens before the answer. -/
def searching : List Event :=
  [.fileChange [shoeA], .search]

/-- A search is sent, the selection is cleared, and then the answer arrives. -/
def answeredAfterClear : List Event :=
  [.fileChange [shoeA], .search, .clear, .settle 0 (.resolved [hit1])]

/-! ## Invariants of the state -/

/-- What every sequence of handler calls preserves. -/
structure HandlerInv (a : App) : Prop where
  busy : a.st.loading = true → a.st.results = [] ∧ a.st.noMatches = false
  exclusive : a.st.noMatches = true → a.st.results = []
  preview : a.st.imagePreview.isSome = a.st.file.isSome
  mounted : a.env.fileInputRef.isSome = true
  input : a.st.file = none → a.env.fileInputRef = some ""

/-- What the page preserves on top of that: one request at most is pending, and
one is pending exactly while `loading` is true. -/
structure PageInv (a : App) extends HandlerInv a : Prop where
  inflight : (a.env.pending = [] ∧ a.st.loading = false) ∨
             (∃ id, a.env.pending = [id] ∧ a.st.loading = true)

/-! ## Preview handles -/

/-- The handles given out by `URL.createObjectURL` and not passed to
`URL.revokeObjectURL` since. -/
def unreleased (env : Env) : List Nat :=
  (List.range env.objectURLs.length).filter (fun h => !env.revokedURLs.contains h)

/-- Whether the event is a selection its handler accepts: a picker change with a
file, or a drop whose first file has a type starting with "image/". -/
def Event.accepted : Event → Bool
  | .fileChange files => files.head?.isSome
  | .drop files =>
      match files.head? with
      | some f => startsWith f.type "image/"
      | none => false
  | _ => false

/-- First `shoeA` is picked, then `shoeB`. -/
def pickedTwice : List Event :=
  [.fileChange [shoeA], .fileChange [shoeB]]

/-- First `shoeA` is picked, then `shoeB` is dropped. -/
def pickedThenDropped : List Event :=
  [.fileChange [shoeA], .drop [shoeB]]

/-- File `shoeA` is picked and the selection is cleared. -/
def pickedThenCleared : List Event :=
  [.fileChange [shoeA], .clear]

/-! ## Local searches: the guard, drops and selections -/

/-- C5: with no file selected, `handleSearch` changes none of the six state
cells, calls `axios.post` not at all (the request log and the pending set are
as before) and raises the "Please upload an image first!" alert, once. -/
theorem handleSearch_no_file (a : App) (h : a.st.file = none) :
    (handleSearch a).st = a.st ∧
    (handleSearch a).env.posts = a.env.posts ∧
    (handleSearch a).env.pending = a.env.pending ∧
    (handleSearch a).env = alert a.env "Please upload an image first!" ∧
    (handleSearch a).env.alerts = a.env.alerts ++ ["Please upload an image first!"] := by
  simp [handleSearch, h, alert]

theorem handleSearch_no_file_witness :
    (init none).st.file = none ∧
    (handleSearch (init none)).st = (init none).st ∧
    (handleSearch (init none)).env.posts = (init none).env.posts ∧
    (handleSearch (init none)).env.pending = (init none).env.pending ∧
    (handleSearch (init none)).env = alert (init none).env "Please upload an image first!" ∧
    (handleSearch (init none)).env.alerts
      = (init none).env.alerts ++ ["Please upload an image first!"] :=
  ⟨rfl, handleSearch_no_file (init none) rfl⟩

/-- C6: a drop whose first file is missing, or has a type that does not start
with "image/", leaves `file`, `imagePreview`, `results`, `noMatches` (and
`loading`) as they were, sets `isDragging` to false, and touches nothing outside
the state: no alert, no console message, no object URL, no request. -/
theorem handleDrop_ignored (a : App) (files : List File)
    (h : files.head? = none ∨
         ∃ f, files.head? = some f ∧ startsWith f.type "image/" = false) :
    (handleDrop files a).st = { a.st with isDragging := false } ∧
    (handleDrop files a).st.file = a.st.file ∧
    (handleDrop files a).st.imagePreview = a.st.imagePreview ∧
    (handleDrop files a).st.results = a.st.results ∧
    (handleDrop files a).st.noMatches = a.st.noMatches ∧
    (handleDrop files a).st.isDragging = false ∧
    (handleDrop files a).env = a.env := by
  rcases h with h | ⟨f, hf, ht⟩
  · simp [handleDrop, h]
  · simp [handleDrop, hf, ht]

theorem handleDrop_ignored_witness :
    ([notes].head? = none ∨
       ∃ f, [notes].head? = some f ∧ startsWith f.type "image/" = false) ∧
    (handleDrop [notes] (run [.fileChange [shoeA], .dragOver] (init none))).st
      = { (run [.fileChange [shoeA], .dragOver] (init none)).st with isDragging := false } ∧
    (handleDrop [notes] (run [.fileChange [shoeA], .dragOver] (init none))).st.file
      = (run [.fileChange [shoeA], .dragOver] (init none)).st.file ∧
    (handleDrop [notes] (run [.fileChange [shoeA], .dragOver] (init none))).st.imagePreview
      = (run [.fileChange [shoeA], .dragOver] (init none)).st.imagePreview ∧
    (handleDrop [notes] (run [.fileChange [shoeA], .dragOver] (init none))).st.results
      = (run [.fileChange [shoeA], .dragOver] (init none)).st.results ∧
    (handleDrop [notes] (run [.fileChange [shoeA], .dragOver] (init none))).st.noMatches
      = (run [.fileChange [shoeA], .dragOver] (init none)).st.noMatches ∧
    (handleDrop [notes] (run [.fileChange [shoeA], .dragOver] (init none))).st.isDragging = false ∧
    (handleDrop [notes] (run [.fileChange [shoeA], .dragOver] (init none))).env
      = (run [.fileChange [shoeA], .dragOver] (init none)).env :=
  ⟨Or.inr ⟨notes, rfl, by decide⟩,
   handleDrop_ignored _ [notes] (Or.inr ⟨notes, rfl, by decide⟩)⟩

/-- C7: a picker selection of any file, and a drop of a file whose type starts
with "image/", both make that file the candidate, set the preview to a handle
that `URL.createObjectURL` had not given out before and that now stands for that
file, and empty the outcome (`results = []`, `noMatches = false`). -/
theorem selection_accepted (a : App) (f : File) (rest : List File) :
    ((handleFileChange (f :: rest) a).st.file = some f ∧
     (handleFileChange (f :: rest) a).st.imagePreview = some a.env.objectURLs.length ∧
     a.env.objectURLs[a.env.objectURLs.length]? = none ∧
     (handleFileChange (f :: rest) a).env.objectURLs[a.env.objectURLs.length]? = some f ∧
     (handleFileChange (f :: rest) a).st.results = [] ∧
     (handleFileChange (f :: rest) a).st.noMatches = false) ∧
    (startsWith f.type "image/" = true →
     (handleDrop (f :: rest) a).st.file = some f ∧
     (handleDrop (f :: rest) a).st.imagePreview = some a.env.objectURLs.length ∧
     a.env.objectURLs[a.env.objectURLs.length]? = none ∧
     (handleDrop (f :: rest) a).env.objectURLs[a.env.objectURLs.length]? = some f ∧
     (handleDrop (f :: rest) a).st.results = [] ∧
     (handleDrop (f :: rest) a).st.noMatches = false) := by
  refine ⟨?_, fun ht => ?_⟩
  · simp [handleFileChange, createObjectURL]
  · simp [handleDrop, createObjectURL, ht]

theorem selection_accepted_witness :
    startsWith shoeB.type "image/" = true ∧
    (handleDrop [shoeB] (run [.fileChange [notes]] (init none))).st.file = some shoeB ∧
    (handleDrop [shoeB] (run [.fileChange [notes]] (init none))).st.imagePreview = some 1 ∧
    (handleDrop [shoeB] (run [.fileChange [notes]] (init none))).env.objectURLs = [notes, shoeB] ∧
    (handleDrop [shoeB] (run [.fileChange [notes]] (init none))).st.results = [] ∧
    (handleDrop [shoeB] (run [.fileChange [notes]] (init none))).st.noMatches = false :=
  have h := (selection_accepted (run [.fileChange [notes]] (init none)) shoeB []).2 (by decide)
  ⟨by decide, h.1, h.2.1, by decide, h.2.2.2.2.1, h.2.2.2.2.2⟩

/-! ## The arrival of a response -/

theorem settleRequest_pending (a : App) (id : Nat) (r : AxiosResult)
    (h : id ∈ a.env.pending) :
    settleRequest id r a
      = handleSearchSettled r
          { a with env := { a.env with pending := a.env.pending.erase id } } := by
  simp [settleRequest, h]

theorem isNotFound_iff (err : AxiosError) :
    isNotFound err = true ↔ ∃ r, err.response = some r ∧ r.status = 404 := by
  cases err with
  | mk response =>
    cases response with
    | none => simp [isNotFound]
    | some r => simp [isNotFound]

/-- C1 (as the code behaves): the arrival of a response is applied whatever the
candidate image is by then; neither `file` nor `imagePreview` is consulted or
touched.  A success puts the returned array in `results` and sets `noMatches` to
false, a 404 sets `results = []` and `noMatches = true`, and a failure other
than 404 leaves `results` and `noMatches` as they were just before the arrival.
`loading` is false afterwards in every case.  A success leaves `results` and
`noMatches` as they were exactly when the returned array equals the current
`results` and `noMatches` is already false; a 404 does exactly when `results` is
already empty and `noMatches` already true. -/
theorem response_applied_whatever_the_candidate (a : App) (id : Nat)
    (h : id ∈ a.env.pending) :
    (∀ data,
      (settleRequest id (.resolved data) a).st
        = { a.st with results := data, noMatches := false, loading := false }) ∧
    (∀ err, isNotFound err = true →
      (settleRequest id (.rejected err) a).st
        = { a.st with results := [], noMatches := true, loading := false }) ∧
    (∀ err, isNotFound err = false →
      (settleRequest id (.rejected err) a).st = { a.st with loading := false } ∧
      (settleRequest id (.rejected err) a).st.results = a.st.results ∧
      (settleRequest id (.rejected err) a).st.noMatches = a.st.noMatches) ∧
    (∀ data,
      ((settleRequest id (.resolved data) a).st.results = a.st.results ∧
       (settleRequest id (.resolved data) a).st.noMatches = a.st.noMatches) ↔
      (data = a.st.results ∧ a.st.noMatches = false)) ∧
    (∀ err, isNotFound err = true →
      (((settleRequest id (.rejected err) a).st.results = a.st.results ∧
        (settleRequest id (.rejected err) a).st.noMatches = a.st.noMatches) ↔
       (a.st.results = [] ∧ a.st.noMatches = true))) := by
  refine ⟨fun data => ?_, fun err he => ?_, fun err he => ?_, fun data => ?_,
    fun err he => ?_⟩
  · simp [settleRequest_pending a id _ h, handleSearchSettled]
  · simp [settleRequest_pending a id _ h, handleSearchSettled, he]
  · simp [settleRequest_pending a id _ h, handleSearchSettled, he]
  · simp only [settleRequest_pending a id _ h, handleSearchSettled]
    constructor
    · rintro ⟨h1, h2⟩
      exact ⟨h1, h2.symm⟩
    · rintro ⟨h1, h2⟩
      exact ⟨h1, h2.symm⟩
  · simp only [settleRequest_pending a id _ h, handleSearchSettled, he, if_true]
    constructor
    · rintro ⟨h1, h2⟩
      exact ⟨h1.symm, h2.symm⟩
    · rintro ⟨h1, h2⟩
      exact ⟨h1.symm, h2.symm⟩

theorem response_applied_whatever_the_candidate_witness :
    0 ∈ (run replacedWhileSearching (init none)).env.pending ∧
    (run replacedWhileSearching (init none)).st.file = some shoeB ∧
    (settleRequest 0 (.resolved [hit1, hit2]) (run replacedWhileSearching (init none))).st
      = { (run replacedWhileSearching (init none)).st with
            results := [hit1, hit2], noMatches := false, loading := false } ∧
    ((settleRequest 0 (.resolved []) (run replacedWhileSearching (init none))).st.results
        = (run replacedWhileSearching (init none)).st.results ∧
     (settleRequest 0 (.resolved []) (run replacedWhileSearching (init none))).st.noMatches
        = (run replacedWhileSearching (init none)).st.noMatches) :=
  have h := response_applied_whatever_the_candidate (run replacedWhileSearching (init none)) 0
    (by decide)
  ⟨by decide, by decide, h.1 [hit1, hit2], (h.2.2.2.1 []).mpr (by decide)⟩

/-- C1 (as stated) fails.  A search is sent for `shoeA`; while it is pending the
candidate becomes `shoeB` (picker or drop) or is cleared; the answer for `shoeA`
then arrives.  A success overwrites `results`, and a 404 flips `noMatches`. -/
theorem stale_response_overwrites_outcome :
    ((run replacedWhileSearching (init none)).env.posts.map Request.image = [shoeA] ∧
     (run replacedWhileSearching (init none)).env.pending = [0] ∧
     (run replacedWhileSearching (init none)).st.file = some shoeB ∧
     (run replacedWhileSearching (init none)).st.results = [] ∧
     (run replacedWhileSearching (init none)).st.noMatches = false ∧
     (dispatch (run replacedWhileSearching (init none))
        (.settle 0 (.resolved [hit1]))).st.results = [hit1] ∧
     (dispatch (run replacedWhileSearching (init none))
        (.settle 0 (.rejected notFound))).st.noMatches = true) ∧
    ((run droppedWhileSearching (init none)).env.posts.map Request.image = [shoeA] ∧
     (run droppedWhileSearching (init none)).st.file = some shoeB ∧
     (run droppedWhileSearching (init none)).st.results = [] ∧
     (dispatch (run droppedWhileSearching (init none))
        (.settle 0 (.resolved [hit1]))).st.results = [hit1]) ∧
    ((run clearedWhileSearching (init none)).env.posts.map Request.image = [shoeA] ∧
     (run clearedWhileSearching (init none)).st.file = none ∧
     (run clearedWhileSearching (init none)).st.results = [] ∧
     (run clearedWhileSearching (init none)).st.noMatches = false ∧
     (dispatch (run clearedWhileSearching (init none))
        (.settle 0 (.resolved [hit1]))).st.results = [hit1] ∧
     (dispatch (run clearedWhileSearching (init none))
        (.settle 0 (.rejected notFound))).st.noMatches = true) := by
  decide

/-- C2 (as the code behaves): when a request completes successfully with an
empty array, `results` is `[]`, `noMatches` is false and `loading` is false; no
alert is raised and nothing is logged.  Neither the "No Matches Found" panel nor
the result grid is rendered: the page shows the empty outcome. -/
theorem empty_success_is_empty_outcome (a : App) (id : Nat) (h : id ∈ a.env.pending) :
    (settleRequest id (.resolved []) a).st.results = [] ∧
    (settleRequest id (.resolved []) a).st.noMatches = false ∧
    (settleRequest id (.resolved []) a).st.loading = false ∧
    (settleRequest id (.resolved []) a).env.alerts = a.env.alerts ∧
    (settleRequest id (.resolved []) a).env.consoleErrors = a.env.consoleErrors ∧
    noMatchesPanel (settleRequest id (.resolved []) a).st = false ∧
    resultCards (settleRequest id (.resolved []) a).st = [] := by
  simp [settleRequest_pending a id _ h, handleSearchSettled, noMatchesPanel, resultCards]

theorem empty_success_is_empty_outcome_witness :
    0 ∈ (run searching (init none)).env.pending ∧
    (settleRequest 0 (.resolved []) (run searching (init none))).st.results = [] ∧
    (settleRequest 0 (.resolved []) (run searching (init none))).st.noMatches = false ∧
    (settleRequest 0 (.resolved []) (run searching (init none))).st.loading = false :=
  have h := empty_success_is_empty_outcome (run searching (init none)) 0 (by decide)
  ⟨by decide, h.1, h.2.1, h.2.2.1⟩

/-- C2 (as stated) fails: with `shoeA` selected and its search pending, a
successful empty answer leaves `noMatches` false, so the "No Matches Found"
panel is not shown; the state cells equal those of a page on which `shoeA` was
selected and no search was ever made. -/
theorem empty_success_not_noMatches :
    (run searching (init none)).st.file = some shoeA ∧
    (dispatch (run searching (init none)) (.settle 0 (.resolved []))).st.noMatches = false ∧
    noMatchesPanel (dispatch (run searching (init none)) (.settle 0 (.resolved []))).st = false ∧
    (dispatch (run searching (init none)) (.settle 0 (.resolved []))).st
      = (run [.fileChange [shoeA]] (init none)).st := by
  decide

/-- C4: a successful response with a non-empty array `data` publishes exactly
`data` in `results` (same elements, same length, same order), with `noMatches`
and `loading` false; the grid shows one card per element, in that order, keyed
by position. -/
theorem matches_published_in_order (a : App) (id : Nat) (h : id ∈ a.env.pending)
    (data : List MatchResult) (hd : data ≠ []) :
    (settleRequest id (.resolved data) a).st.results = data ∧
    (settleRequest id (.resolved data) a).st.results.length = data.length ∧
    (settleRequest id (.resolved data) a).st.noMatches = false ∧
    (settleRequest id (.resolved data) a).st.loading = false ∧
    (resultCards (settleRequest id (.resolved data) a).st).map Prod.snd = data ∧
    (resultCards (settleRequest id (.resolved data) a).st).map Prod.fst
      = List.range data.length := by
  have hl : 0 < data.length := List.length_pos.mpr hd
  simp [settleRequest_pending a id _ h, handleSearchSettled, resultCards, hl,
    List.enum_map_snd, List.enum_map_fst]

theorem matches_published_in_order_witness :
    0 ∈ (run searching (init none)).env.pending ∧ [hit1, hit2] ≠ [] ∧
    (settleRequest 0 (.resolved [hit1, hit2]) (run searching (init none))).st.results
      = [hit1, hit2] ∧
    (settleRequest 0 (.resolved [hit1, hit2]) (run searching (init none))).st.noMatches = false ∧
    (settleRequest 0 (.resolved [hit1, hit2]) (run searching (init none))).st.loading = false :=
  have h := matches_published_in_order (run searching (init none)) 0 (by decide)
    [hit1, hit2] (by decide)
  ⟨by decide, by decide, h.1, h.2.2.1, h.2.2.2.1⟩

/-! ## Preservation of the invariants -/

theorem handlerInv_init (apiUrl : Option String) : HandlerInv (init apiUrl) := by
  constructor <;> simp [init]

theorem handlerInv_apply (a : App) (e : Event) (h : HandlerInv a) :
    HandlerInv (e.apply a) := by
  obtain ⟨hb, hx, hp, hm, hi⟩ := h
  obtain ⟨v, hv⟩ := Option.isSome_iff_exists.mp hm
  cases e with
  | fileChange files =>
    cases files with
    | nil =>
      constructor <;>
        simp_all [Event.apply, handleFileChange, chooseFiles, inputValue]
    | cons f rest =>
      constructor <;>
        simp_all [Event.apply, handleFileChange, chooseFiles, inputValue, createObjectURL]
  | dragOver => constructor <;> simp_all [Event.apply, handleDragOver]
  | dragLeave => constructor <;> simp_all [Event.apply, handleDragLeave]
  | drop files =>
    cases files with
    | nil => constructor <;> simp_all [Event.apply, handleDrop]
    | cons f rest =>
      by_cases ht : startsWith f.type "image/" = true
      · constructor <;> simp_all [Event.apply, handleDrop, createObjectURL]
      · constructor <;> simp_all [Event.apply, handleDrop]
  | search =>
    cases hf : a.st.file with
    | none => constructor <;> simp_all [Event.apply, handleSearch, alert]
    | some f => constructor <;> simp_all [Event.apply, handleSearch, axiosPost]
  | clear => constructor <;> simp_all [Event.apply, clearImage]
  | settle id r =>
    by_cases hid : id ∈ a.env.pending
    · cases r with
      | resolved data =>
        constructor <;>
          simp_all [Event.apply, settleRequest, handleSearchSettled]
      | rejected err =>
        by_cases he : isNotFound err = true
        · constructor <;>
            simp_all [Event.apply, settleRequest, handleSearchSettled]
        · constructor <;>
            simp_all [Event.apply, settleRequest, handleSearchSettled, alert, consoleError]
    · constructor <;> simp_all [Event.apply, settleRequest]

theorem handlerInv_dispatch (a : App) (e : Event) (h : HandlerInv a) :
    HandlerInv (dispatch a e) := by
  unfold dispatch
  split
  · exact handlerInv_apply a e h
  · exact h

theorem pageInv_init (apiUrl : Option String) : PageInv (init apiUrl) :=
  { toHandlerInv := handlerInv_init apiUrl, inflight := Or.inl ⟨rfl, rfl⟩ }

theorem pageInv_dispatch (a : App) (e : Event) (h : PageInv a) :
    PageInv (dispatch a e) := by
  refine { toHandlerInv := handlerInv_dispatch a e h.toHandlerInv, inflight := ?_ }
  have hin := h.inflight
  have hp := h.preview
  obtain ⟨v, hv⟩ := Option.isSome_iff_exists.mp h.mounted
  unfold dispatch
  split
  next hen =>
    cases e with
    | fileChange files =>
      cases files with
      | nil => simpa [Event.apply, handleFileChange, chooseFiles, hv] using hin
      | cons f rest =>
        simpa [Event.apply, handleFileChange, chooseFiles, createObjectURL, hv] using hin
    | dragOver => simpa [Event.apply, handleDragOver] using hin
    | dragLeave => simpa [Event.apply, handleDragLeave] using hin
    | drop files =>
      cases files with
      | nil => simpa [Event.apply, handleDrop] using hin
      | cons f rest =>
        by_cases ht : startsWith f.type "image/" = true
        · simpa [Event.apply, handleDrop, createObjectURL, ht] using hin
        · simpa [Event.apply, handleDrop, ht] using hin
    | search =>
      cases hprev : a.st.imagePreview with
      | none => simp [Event.enabled, searchButton, hprev] at hen
      | some u =>
        have hl : a.st.loading = false := by
          simpa [Event.enabled, searchButton, hprev] using hen
        have hpend : a.env.pending = [] := by
          rcases hin with ⟨h1, _⟩ | ⟨id, _, h2⟩
          · exact h1
          · rw [hl] at h2; cases h2
        cases hf : a.st.file with
        | none => rw [hprev, hf] at hp; cases hp
        | some f =>
          right
          exact ⟨a.env.posts.length, by simp [Event.apply, handleSearch, hf, axiosPost, hpend]⟩
    | clear => simpa [Event.apply, clearImage, hv] using hin
    | settle id r =>
      have hid : id ∈ a.env.pending := by simpa [Event.enabled] using hen
      rcases hin with ⟨h1, _⟩ | ⟨id0, h1, _⟩
      · rw [h1] at hid; cases hid
      · left
        have : id = id0 := by simpa [h1] using hid
        subst this
        cases r with
        | resolved data =>
          simp [Event.apply, settleRequest, handleSearchSettled, h1]
        | rejected err =>
          by_cases he : isNotFound err = true
          · simp [Event.apply, settleRequest, handleSearchSettled, h1, he]
          · simp [Event.apply, settleRequest, handleSearchSettled, h1, he, alert, consoleError]
  next => exact hin

theorem run_snoc (es : List Event) (e : Event) (a : App) :
    run (es ++ [e]) a = dispatch (run es a) e := by
  simp [run, List.foldl_append]

theorem runHandlers_snoc (es : List Event) (e : Event) (a : App) :
    runHandlers (es ++ [e]) a = e.apply (runHandlers es a) := by
  simp [runHandlers, List.foldl_append]

theorem handlerInv_runHandlers (es : List Event) (a : App) (h : HandlerInv a) :
    HandlerInv (runHandlers es a) := by
  induction es generalizing a with
  | nil => exact h
  | cons e es ih => exact ih (e.apply a) (handlerInv_apply a e h)

theorem pageInv_run (es : List Event) (a : App) (h : PageInv a) :
    PageInv (run es a) := by
  induction es generalizing a with
  | nil => exact h
  | cons e es ih => exact ih (dispatch a e) (pageInv_dispatch a e h)

theorem handlerInv_of_handlerReachable (a : App) (h : HandlerReachable a) :
    HandlerInv a := by
  obtain ⟨apiUrl, es, rfl⟩ := h
  exact handlerInv_runHandlers es _ (handlerInv_init apiUrl)

theorem pageInv_of_reachable (a : App) (h : Reachable a) : PageInv a := by
  obtain ⟨apiUrl, es, rfl⟩ := h
  exact pageInv_run es _ (pageInv_init apiUrl)

/-- Every state of the page is also a state of the handlers called freely. -/
theorem handlerReachable_of_reachable (a : App) (h : Reachable a) :
    HandlerReachable a := by
  obtain ⟨apiUrl, es, rfl⟩ := h
  induction es using List.reverseRecOn with
  | nil => exact ⟨apiUrl, [], rfl⟩
  | append_singleton es e ih =>
    rw [run_snoc]
    unfold dispatch
    split
    · obtain ⟨u, hs, hrun⟩ := ih
      exact ⟨u, hs ++ [e], by rw [runHandlers_snoc, ← hrun]⟩
    · exact ih

/-! ## Classification of failures, concurrency, exclusivity, clearing -/

/-- C3: on the page, when a pending request is rejected with `err`, `loading` is
false afterwards and `results` is empty; `noMatches` is true exactly when `err`
carries a response with status 404, and in that case nothing is reported; for
any other rejection (another status, or no response at all) the alert
"Something went wrong. Check backend logs." is raised once, the error is logged,
and `noMatches` is false. -/
theorem rejection_classified (a : App) (h : Reachable a) (id : Nat)
    (hid : id ∈ a.env.pending) (err : AxiosError) :
    (settleRequest id (.rejected err) a).st.loading = false ∧
    (settleRequest id (.rejected err) a).st.results = [] ∧
    ((settleRequest id (.rejected err) a).st.noMatches = true ↔
      ∃ r, err.response = some r ∧ r.status = 404) ∧
    ((∃ r, err.response = some r ∧ r.status = 404) →
      (settleRequest id (.rejected err) a).env.alerts = a.env.alerts ∧
      (settleRequest id (.rejected err) a).env.consoleErrors = a.env.consoleErrors) ∧
    ((¬ ∃ r, err.response = some r ∧ r.status = 404) →
      (settleRequest id (.rejected err) a).st.noMatches = false ∧
      (settleRequest id (.rejected err) a).env.alerts
        = a.env.alerts ++ ["Something went wrong. Check backend logs."] ∧
      (settleRequest id (.rejected err) a).env.consoleErrors
        = a.env.consoleErrors ++ [err]) := by
  have hinv := pageInv_of_reachable a h
  have hload : a.st.loading = true := by
    rcases hinv.inflight with ⟨h1, _⟩ | ⟨_, _, h2⟩
    · rw [h1] at hid; cases hid
    · exact h2
  obtain ⟨hres, hnm⟩ := hinv.busy hload
  rw [← isNotFound_iff]
  by_cases he : isNotFound err = true
  · simp [settleRequest_pending a id _ hid, handleSearchSettled, he]
  · simp [settleRequest_pending a id _ hid, handleSearchSettled, he, hres, hnm,
      alert, consoleError]

theorem rejection_classified_witness :
    Reachable (run searching (init none)) ∧
    0 ∈ (run searching (init none)).env.pending ∧
    (settleRequest 0 (.rejected serverError) (run searching (init none))).st.loading = false ∧
    (settleRequest 0 (.rejected serverError) (run searching (init none))).st.results = [] ∧
    (settleRequest 0 (.rejected serverError) (run searching (init none))).st.noMatches = false ∧
    (settleRequest 0 (.rejected serverError) (run searching (init none))).env.alerts
      = ["Something went wrong. Check backend logs."] ∧
    (settleRequest 0 (.rejected notFound) (run searching (init none))).st.noMatches = true :=
  have h5 := rejection_classified (run searching (init none)) ⟨none, searching, rfl⟩ 0
    (by decide) serverError
  have h4 := rejection_classified (run searching (init none)) ⟨none, searching, rfl⟩ 0
    (by decide) notFound
  ⟨⟨none, searching, rfl⟩, by decide, h5.1, h5.2.1,
   (h5.2.2.2.2 (by decide)).1, (h5.2.2.2.2 (by decide)).2.1,
   h4.2.2.1.mpr ⟨⟨404⟩, rfl, rfl⟩⟩

/-- The guard against a second request is the `disabled` attribute of the
button, not `handleSearch`: called directly with a file selected, the handler
posts whatever `loading` is. -/
theorem handleSearch_posts_whatever_loading (a : App) (f : File)
    (hf : a.st.file = some f) :
    (handleSearch a).env.pending = a.env.pending ++ [a.env.posts.length] := by
  simp [handleSearch, hf, axiosPost]

/-- C8 (as the code behaves): in every state of the page at most one request
is pending, and one is pending exactly when `loading` is true.  What keeps a
second request from starting is the button: while `loading` is true a click on
the search button changes nothing.  `handleSearch` itself does not look at
`loading`: called with a file selected it posts one more request, so called
while `loading` is true it leaves two requests pending. -/
theorem one_request_in_flight (a : App) (h : Reachable a) :
    a.env.pending.length ≤ 1 ∧
    (a.env.pending ≠ [] ↔ a.st.loading = true) ∧
    (a.st.loading = true →
      dispatch a .search = a ∧
      (dispatch a .search).env.posts = a.env.posts ∧
      (dispatch a .search).env.pending = a.env.pending) ∧
    (∀ f, a.st.file = some f →
      (handleSearch a).env.posts
        = a.env.posts ++ [{ url := API_URL a.env ++ "/search", image := f }] ∧
      (handleSearch a).env.pending = a.env.pending ++ [a.env.posts.length] ∧
      (a.st.loading = true → (handleSearch a).env.pending.length = 2)) := by
  have hinv := pageInv_of_reachable a h
  refine ⟨?_, ⟨fun hne => ?_, fun hl => ?_⟩, fun hl => ?_, fun f hf => ⟨?_, ?_, fun hl => ?_⟩⟩
  · rcases hinv.inflight with ⟨h1, _⟩ | ⟨_, h1, _⟩ <;> simp [h1]
  · rcases hinv.inflight with ⟨h1, _⟩ | ⟨_, _, h2⟩
    · exact absurd h1 hne
    · exact h2
  · rcases hinv.inflight with ⟨_, h2⟩ | ⟨_, h1, _⟩
    · rw [hl] at h2; cases h2
    · simp [h1]
  · have hd : dispatch a .search = a := by
      cases hprev : a.st.imagePreview <;>
        simp [dispatch, Event.enabled, searchButton, hprev, hl]
    rw [hd]
    exact ⟨rfl, rfl, rfl⟩
  · simp [handleSearch, hf, axiosPost]
  · exact handleSearch_posts_whatever_loading a f hf
  · rw [handleSearch_posts_whatever_loading a f hf]
    rcases hinv.inflight with ⟨_, h2⟩ | ⟨_, h1, _⟩
    · rw [hl] at h2; cases h2
    · simp [h1]

theorem one_request_in_flight_witness :
    Reachable (run replacedWhileSearching (init none)) ∧
    (run replacedWhileSearching (init none)).st.loading = true ∧
    (run replacedWhileSearching (init none)).st.file = some shoeB ∧
    (run replacedWhileSearching (init none)).env.pending.length ≤ 1 ∧
    dispatch (run replacedWhileSearching (init none)) .search
      = run replacedWhileSearching (init none) ∧
    (handleSearch (run replacedWhileSearching (init none))).env.pending.length = 2 :=
  have h := one_request_in_flight (run replacedWhileSearching (init none))
    ⟨none, replacedWhileSearching, rfl⟩
  ⟨⟨none, replacedWhileSearching, rfl⟩, by decide, by decide, h.1,
   (h.2.2.1 (by decide)).1, (h.2.2.2 shoeB (by decide)).2.2 (by decide)⟩

/-- C8 (as stated) fails for the handler.  On the page, `shoeA` is picked and a
search is sent: `loading` is true and request `0` is pending.  `handleSearch`
called in that state posts request `1`, again for `shoeA`, while `0` is still
pending. -/
theorem handleSearch_while_loading_posts_again :
    Reachable (run searching (init none)) ∧
    (run searching (init none)).st.loading = true ∧
    (run searching (init none)).env.pending = [0] ∧
    (handleSearch (run searching (init none))).env.pending = [0, 1] ∧
    (handleSearch (run searching (init none))).env.posts.map Request.image
      = [shoeA, shoeA] :=
  ⟨⟨none, searching, rfl⟩, by decide, by decide, by decide, by decide⟩

/-- C9: in every state reached by calling the handlers in any order (selections,
drops, drag signals, clears, search submissions, response arrivals), no two of
"`loading` is true", "`results` is non-empty", "`noMatches` is true" hold
together; and a search submitted with a file selected leaves `results = []`,
`noMatches = false` and `loading = true`. -/
theorem outcome_exclusive (a : App) (h : HandlerReachable a) :
    ¬ (a.st.loading = true ∧ a.st.results ≠ []) ∧
    ¬ (a.st.loading = true ∧ a.st.noMatches = true) ∧
    ¬ (a.st.results ≠ [] ∧ a.st.noMatches = true) ∧
    (∀ f, a.st.file = some f →
      (handleSearch a).st.results = [] ∧
      (handleSearch a).st.noMatches = false ∧
      (handleSearch a).st.loading = true) := by
  have hinv := handlerInv_of_handlerReachable a h
  refine ⟨fun ⟨hl, hr⟩ => hr (hinv.busy hl).1, fun ⟨hl, hn⟩ => ?_,
    fun ⟨hr, hn⟩ => hr (hinv.exclusive hn), fun f hf => ?_⟩
  · rw [(hinv.busy hl).2] at hn; cases hn
  · simp [handleSearch, hf]

theorem outcome_exclusive_witness :
    HandlerReachable (runHandlers [.fileChange [shoeA], .search, .search] (init none)) ∧
    ¬ ((runHandlers [.fileChange [shoeA], .search, .search] (init none)).st.loading = true ∧
       (runHandlers [.fileChange [shoeA], .search, .search] (init none)).st.results ≠ []) ∧
    (handleSearch (runHandlers [.fileChange [shoeA], .search, .search] (init none))).st.loading
      = true :=
  have h := outcome_exclusive (runHandlers [.fileChange [shoeA], .search, .search] (init none))
    ⟨none, _, rfl⟩
  ⟨⟨none, _, rfl⟩, h.1, (h.2.2.2 shoeA (by decide)).2.2⟩

/-- C10 (as the code behaves): `clearImage` always yields `file = null`,
`imagePreview = null`, `results = []`, `noMatches = false`, keeps `loading` and
`isDragging`, and is idempotent.  In a state of the page with `file = null` it
leaves everything but `results` and `noMatches` as it was, and it returns the
same state exactly when `results` is already empty and `noMatches` already
false. -/
theorem clearImage_resets (a : App) :
    ((clearImage a).st.file = none ∧
     (clearImage a).st.imagePreview = none ∧
     (clearImage a).st.results = [] ∧
     (clearImage a).st.noMatches = false ∧
     (clearImage a).st.loading = a.st.loading ∧
     (clearImage a).st.isDragging = a.st.isDragging) ∧
    clearImage (clearImage a) = clearImage a ∧
    (Reachable a → a.st.file = none →
      (clearImage a).env = a.env ∧
      (clearImage a).st = { a.st with results := [], noMatches := false } ∧
      (clearImage a = a ↔ a.st.results = [] ∧ a.st.noMatches = false)) := by
  refine ⟨by simp [clearImage], ?_, fun hr hf => ?_⟩
  · cases hv : a.env.fileInputRef <;> simp [clearImage, hv]
  · have hinv := pageInv_of_reachable a hr
    have hin := hinv.input hf
    have hp : a.st.imagePreview = none := by
      have := hinv.preview
      rw [hf] at this
      simpa using this
    obtain ⟨st, env⟩ := a
    obtain ⟨file, imagePreview, results, loading, noMatches, isDragging⟩ := st
    obtain ⟨u, ref, urls, revoked, alerts, errors, posts, pending⟩ := env
    simp only at hf hin hp
    subst hf hin hp
    simp [clearImage]

theorem clearImage_resets_witness :
    Reachable (run clearedWhileSearching (init none)) ∧
    (run clearedWhileSearching (init none)).st.file = none ∧
    (clearImage (run clearedWhileSearching (init none))
        = run clearedWhileSearching (init none) ↔
      (run clearedWhileSearching (init none)).st.results = [] ∧
      (run clearedWhileSearching (init none)).st.noMatches = false) :=
  ⟨⟨none, clearedWhileSearching, rfl⟩, by decide,
   ((clearImage_resets (run clearedWhileSearching (init none))).2.2
      ⟨none, clearedWhileSearching, rfl⟩ (by decide)).2.2⟩

/-- C10 (as stated) fails: after a search, a clear and the late arrival of the
answer, the page has `file = null` and `results = [hit1]`; `clearImage` empties
`results`, so it does not return that state unchanged. -/
theorem clearImage_not_noop_without_file :
    Reachable (run answeredAfterClear (init none)) ∧
    (run answeredAfterClear (init none)).st.file = none ∧
    (run answeredAfterClear (init none)).st.results = [hit1] ∧
    (clearImage (run answeredAfterClear (init none))).st.results = [] ∧
    clearImage (run answeredAfterClear (init none)) ≠ run answeredAfterClear (init none) :=
  ⟨⟨none, answeredAfterClear, rfl⟩, by decide, by decide, by decide, by decide⟩

/-! ## Preview handles are never released -/

theorem apply_revokedURLs (e : Event) (a : App) :
    (e.apply a).env.revokedURLs = a.env.revokedURLs := by
  cases e with
  | fileChange files =>
    cases files with
    | nil =>
      cases hv : a.env.fileInputRef <;>
        simp [Event.apply, handleFileChange, chooseFiles, hv]
    | cons f rest =>
      cases hv : a.env.fileInputRef <;>
        simp [Event.apply, handleFileChange, chooseFiles, createObjectURL, hv]
  | dragOver => rfl
  | dragLeave => rfl
  | drop files =>
    cases files with
    | nil => rfl
    | cons f rest =>
      by_cases ht : startsWith f.type "image/" = true
      · simp [Event.apply, handleDrop, createObjectURL, ht]
      · simp [Event.apply, handleDrop, ht]
  | search =>
    cases hf : a.st.file <;> simp [Event.apply, handleSearch, hf, alert, axiosPost]
  | clear =>
    cases hv : a.env.fileInputRef <;> simp [Event.apply, clearImage, hv]
  | settle id r =>
    by_cases hid : id ∈ a.env.pending
    · cases r with
      | resolved data => simp [Event.apply, settleRequest, handleSearchSettled, hid]
      | rejected err =>
        by_cases he : isNotFound err = true
        · simp [Event.apply, settleRequest, handleSearchSettled, hid, he]
        · simp [Event.apply, settleRequest, handleSearchSettled, hid, he, alert,
            consoleError]
    · simp [Event.apply, settleRequest, hid]

theorem apply_objectURLs_length (e : Event) (a : App) :
    (e.apply a).env.objectURLs.length
      = a.env.objectURLs.length + (if e.accepted then 1 else 0) := by
  cases e with
  | fileChange files =>
    cases files with
    | nil =>
      cases hv : a.env.fileInputRef <;>
        simp [Event.apply, Event.accepted, handleFileChange, chooseFiles, hv]
    | cons f rest =>
      cases hv : a.env.fileInputRef <;>
        simp [Event.apply, Event.accepted, handleFileChange, chooseFiles,
          createObjectURL, hv]
  | dragOver => rfl
  | dragLeave => rfl
  | drop files =>
    cases files with
    | nil => rfl
    | cons f rest =>
      by_cases ht : startsWith f.type "image/" = true
      · simp [Event.apply, Event.accepted, handleDrop, createObjectURL, ht]
      · simp [Event.apply, Event.accepted, handleDrop, ht]
  | search =>
    cases hf : a.st.file <;>
      simp [Event.apply, Event.accepted, handleSearch, hf, alert, axiosPost]
  | clear =>
    cases hv : a.env.fileInputRef <;>
      simp [Event.apply, Event.accepted, clearImage, hv]
  | settle id r =>
    by_cases hid : id ∈ a.env.pending
    · cases r with
      | resolved data =>
        simp [Event.apply, Event.accepted, settleRequest, handleSearchSettled, hid]
      | rejected err =>
        by_cases he : isNotFound err = true
        · simp [Event.apply, Event.accepted, settleRequest, handleSearchSettled, hid, he]
        · simp [Event.apply, Event.accepted, settleRequest, handleSearchSettled, hid, he,
            alert, consoleError]
    · simp [Event.apply, Event.accepted, settleRequest, hid]

theorem runHandlers_revokedURLs (es : List Event) (a : App) :
    (runHandlers es a).env.revokedURLs = a.env.revokedURLs := by
  induction es generalizing a with
  | nil => rfl
  | cons e es ih =>
    have h := ih (e.apply a)
    rw [apply_revokedURLs] at h
    exact h

theorem runHandlers_objectURLs_length (es : List Event) (a : App) :
    (runHandlers es a).env.objectURLs.length
      = a.env.objectURLs.length + es.countP Event.accepted := by
  induction es generalizing a with
  | nil => simp [runHandlers]
  | cons e es ih =>
    have h := ih (e.apply a)
    rw [apply_objectURLs_length] at h
    have hrun : runHandlers (e :: es) a = runHandlers es (e.apply a) := rfl
    rw [hrun, h, List.countP_cons]
    omega

theorem unreleased_of_none_revoked (env : Env) (h : env.revokedURLs = []) :
    unreleased env = List.range env.objectURLs.length := by
  simp [unreleased, h]

/-- C11 (as the code behaves): an accepted picker or drop selection creates
exactly one new handle, for the selected file, and releases none; `clearImage`
creates none and releases none; no handler passes a handle to
`URL.revokeObjectURL`.  Hence in every state reached by the handlers every
handle created so far is still unreleased, and their number is the number of
accepted selections made so far. -/
theorem preview_handles_never_released (a : App) :
    (∀ f rest,
      (handleFileChange (f :: rest) a).env.objectURLs = a.env.objectURLs ++ [f] ∧
      (handleFileChange (f :: rest) a).env.revokedURLs = a.env.revokedURLs) ∧
    (∀ f rest, startsWith f.type "image/" = true →
      (handleDrop (f :: rest) a).env.objectURLs = a.env.objectURLs ++ [f] ∧
      (handleDrop (f :: rest) a).env.revokedURLs = a.env.revokedURLs) ∧
    ((clearImage a).env.objectURLs = a.env.objectURLs ∧
     (clearImage a).env.revokedURLs = a.env.revokedURLs) ∧
    (∀ e : Event, (e.apply a).env.revokedURLs = a.env.revokedURLs) ∧
    (∀ apiUrl es, a = runHandlers es (init apiUrl) →
      a.env.revokedURLs = [] ∧
      unreleased a.env = List.range a.env.objectURLs.length ∧
      (unreleased a.env).length = es.countP Event.accepted) := by
  refine ⟨fun f rest => ?_, fun f rest ht => ?_, ?_, fun e => apply_revokedURLs e a,
    fun apiUrl es ha => ?_⟩
  · simp [handleFileChange, createObjectURL]
  · simp [handleDrop, createObjectURL, ht]
  · cases hv : a.env.fileInputRef <;> simp [clearImage, hv]
  · subst ha
    have hrev : (runHandlers es (init apiUrl)).env.revokedURLs = [] := by
      rw [runHandlers_revokedURLs]; rfl
    have hlen := runHandlers_objectURLs_length es (init apiUrl)
    refine ⟨hrev, unreleased_of_none_revoked _ hrev, ?_⟩
    rw [unreleased_of_none_revoked _ hrev, List.length_range, hlen]
    simp [init]

theorem preview_handles_never_released_witness :
    startsWith shoeB.type "image/" = true ∧
    runHandlers pickedTwice (init none) = runHandlers pickedTwice (init none) ∧
    (handleDrop [shoeB] (runHandlers pickedTwice (init none))).env.objectURLs
      = (runHandlers pickedTwice (init none)).env.objectURLs ++ [shoeB] ∧
    (handleDrop [shoeB] (runHandlers pickedTwice (init none))).env.revokedURLs
      = (runHandlers pickedTwice (init none)).env.revokedURLs ∧
    (runHandlers pickedTwice (init none)).env.revokedURLs = [] ∧
    (unreleased (runHandlers pickedTwice (init none)).env).length
      = pickedTwice.countP Event.accepted :=
  have h := preview_handles_never_released (runHandlers pickedTwice (init none))
  have hd := h.2.1 shoeB [] (by decide)
  have hr := h.2.2.2.2 none pickedTwice rfl
  ⟨by decide, rfl, hd.1, hd.2, hr.1, hr.2.2⟩

/-- C11 (as stated) fails.  With the preview `0` of `shoeA` on the page, picking
or dropping `shoeB` creates handle `1` and releases nothing: handles `0` and `1`
are both unreleased.  Clearing after picking `shoeA` sets `imagePreview` to null
and leaves handle `0` unreleased. -/
theorem superseded_preview_not_released :
    (run [.fileChange [shoeA]] (init none)).st.imagePreview = some 0 ∧
    ((run pickedTwice (init none)).st.imagePreview = some 1 ∧
     (run pickedTwice (init none)).env.revokedURLs = [] ∧
     unreleased (run pickedTwice (init none)).env = [0, 1]) ∧
    ((run pickedThenDropped (init none)).st.imagePreview = some 1 ∧
     (run pickedThenDropped (init none)).env.revokedURLs = [] ∧
     unreleased (run pickedThenDropped (init none)).env = [0, 1]) ∧
    ((run pickedThenCleared (init none)).st.imagePreview = none ∧
     (run pickedThenCleared (init none)).env.revokedURLs = [] ∧
     unreleased (run pickedThenCleared (init none)).env = [0]) := by
  decide

end VisualProductMatcher
